import Mathlib

/-!
Shallow embedding of the weather-analytics core of the
vancouver-weather-dashboard repository:
`src/utils/calculations.js` (statistics/aggregation engine) and the
query functions of the `useWeatherData` hook (`searchData`,
`getYearComparison`).

Modelling conventions:
* JS numbers on observation records are modelled as `ℚ`; a missing
  numeric field (JS `null`) is `Option.none`.  JS `+` coerces `null`
  to `0`, which the embedding mirrors with `Option.getD 0` at the
  call sites where the source adds a possibly-null field.
* `Math.max(...)`/`Math.min(...)` over a spread array yield
  `-Infinity`/`+Infinity` on an empty array; the result type `JSNum`
  makes these non-finite outcomes explicit.
* `Math.sqrt` forces `ℝ` in `detectAnomalies` and
  `calculateCorrelation`; those two definitions are the only
  noncomputable ones.
* A thrown JS exception is modelled with `Option`: `searchData`
  evaluates a `null` criterion value as a TypeError (`none`), which
  aborts the whole search.
-/

/-- JS number results that may be non-finite (`Math.max()` on an empty
spread is `-Infinity`, `Math.min()` is `+Infinity`, and subtraction can
produce `NaN`). -/
inductive JSNum where
  | fin (q : ℚ)
  | posInf
  | negInf
  | nan
deriving DecidableEq

/-- A JS field value as stored on an observation record: `null`, a
number, or a string. -/
inductive JSVal where
  | null
  | num (q : ℚ)
  | str (s : String)
deriving DecidableEq

/-- An observation record (src/data shape).  Numeric fields are
nullable per the data model; `none` models JS `null`. -/
structure WRecord where
  year : ℤ
  month : String
  temp : Option ℚ
  tempMin : Option ℚ
  tempMax : Option ℚ
  rainfall : Option ℚ
  humidity : Option ℚ
  sunshine : Option ℚ
deriving DecidableEq

/-- The field names used for dynamic `record[key]` access. -/
inductive WField where
  | year
  | month
  | temp
  | tempMin
  | tempMax
  | rainfall
  | humidity
  | sunshine
deriving DecidableEq

/-- Numeric view of `d[metric]`: the nullable numeric fields, with
`year` always present.  `month` is a (non-numeric) string label, so no
numeric value is available for it: JS arithmetic on it yields `NaN`,
which matches no record and sums to no finite statistic, i.e. it acts
as absent. -/
def numField (r : WRecord) : WField → Option ℚ
  | .year => some (r.year : ℚ)
  | .month => none
  | .temp => r.temp
  | .tempMin => r.tempMin
  | .tempMax => r.tempMax
  | .rainfall => r.rainfall
  | .humidity => r.humidity
  | .sunshine => r.sunshine

/-- `record[key]` as a JS value (`null`, number or string). -/
def getField (r : WRecord) : WField → JSVal
  | .year => .num (r.year : ℚ)
  | .month => .str r.month
  | .temp => (r.temp.map .num).getD .null
  | .tempMin => (r.tempMin.map .num).getD .null
  | .tempMax => (r.tempMax.map .num).getD .null
  | .rainfall => (r.rainfall.map .num).getD .null
  | .humidity => (r.humidity.map .num).getD .null
  | .sunshine => (r.sunshine.map .num).getD .null

/-- `Math.max(...l)`: `-Infinity` on an empty spread, else the maximum. -/
def jsMaxList : List ℚ → JSNum
  | [] => .negInf
  | a :: t => .fin (t.foldl max a)

/-- `Math.min(...l)`: `+Infinity` on an empty spread, else the minimum. -/
def jsMinList : List ℚ → JSNum
  | [] => .posInf
  | a :: t => .fin (t.foldl min a)

/-- IEEE-style subtraction on `JSNum` (needed for
`range = Math.max(...) - Math.min(...)`). -/
def jsSub : JSNum → JSNum → JSNum
  | .nan, _ => .nan
  | _, .nan => .nan
  | .fin a, .fin b => .fin (a - b)
  | .fin _, .posInf => .negInf
  | .fin _, .negInf => .posInf
  | .posInf, .fin _ => .posInf
  | .posInf, .negInf => .posInf
  | .posInf, .posInf => .nan
  | .negInf, .fin _ => .negInf
  | .negInf, .posInf => .negInf
  | .negInf, .negInf => .nan

/-- JS `===` between a nullable numeric field and a computed `JSNum`
extreme: `null` equals nothing, a finite number equals only the same
finite number. -/
def optEqJSNum (v : Option ℚ) : JSNum → Bool
  | .fin m => match v with
    | some q => decide (q = m)
    | none => false
  | _ => false

/-- `calculateAverage(values)` from utils/calculations.js: `0` for an
empty (or absent) array, else sum divided by length. -/
def calculateAverage (values : List ℚ) : ℚ :=
  if values.length = 0 then 0 else values.sum / values.length

/-- `calculateAverage` as invoked on an array that may contain nulls
(`calculateYearlyAggregates` passes `yearData.map(d => d.temp)`
unfiltered): JS `+` coerces `null` to `0` inside the reduce, while the
division still uses the full array length. -/
def calculateAverageOpt (values : List (Option ℚ)) : ℚ :=
  if values.length = 0 then 0
  else (values.map (fun v => v.getD 0)).sum / values.length

/-- Result shape of `calculateTemperatureStats`. -/
structure TempStats where
  average : ℚ
  max : JSNum
  min : JSNum
  range : JSNum
  hottestMonth : Option String
  coldestMonth : Option String
deriving DecidableEq

/-- `calculateTemperatureStats(data)`: `null` when the input array is
missing or empty; otherwise statistics over the temp fields present
after the per-field `filter(t => t !== null && t !== undefined)`. -/
def calculateTemperatureStats (data : List WRecord) : Option TempStats :=
  if data.length = 0 then none
  else
    let temperatures := (data.map (fun d => d.temp)).filterMap id
    let maxTemps := (data.map (fun d => d.tempMax)).filterMap id
    let minTemps := (data.map (fun d => d.tempMin)).filterMap id
    some
      { average := calculateAverage temperatures
        max := jsMaxList maxTemps
        min := jsMinList minTemps
        range := jsSub (jsMaxList maxTemps) (jsMinList minTemps)
        hottestMonth :=
          (data.find? (fun d => optEqJSNum d.tempMax (jsMaxList maxTemps))).map
            (fun d => d.month)
        coldestMonth :=
          (data.find? (fun d => optEqJSNum d.tempMin (jsMinList minTemps))).map
            (fun d => d.month) }

/-- `Math.round`: round half up, as an integer. -/
def jsRound (q : ℚ) : ℤ := ⌊q + 1 / 2⌋

/-- `Math.round(q * 10) / 10`: rounding to one decimal place. -/
def round1 (q : ℚ) : ℚ := (jsRound (q * 10) : ℚ) / 10

/-- Insertion-order deduplication, as performed by
`[...new Set(list)]` (keeps the first occurrence of each element). -/
def jsSetAux : List ℤ → List ℤ → List ℤ
  | [], _ => []
  | a :: l, seen => if a ∈ seen then jsSetAux l seen else a :: jsSetAux l (a :: seen)

/-- `[...new Set(list)]`. -/
def jsSetList (l : List ℤ) : List ℤ := jsSetAux l []

/-- One output row of `calculateYearlyAggregates`. -/
structure YearAgg where
  year : ℤ
  totalRainfall : ℤ
  avgTemp : ℚ
  avgHumidity : ℤ
  totalSunshine : ℚ
deriving DecidableEq

/-- `calculateYearlyAggregates(yearlyData)`: one row per distinct year
(first-occurrence order); sums/averages are taken over the raw field
arrays, JS coercing a `null` addend to `0`. -/
def calculateYearlyAggregates (yearlyData : List WRecord) : List YearAgg :=
  let years := jsSetList (yearlyData.map (fun d => d.year))
  years.map (fun year =>
    let yearData := yearlyData.filter (fun d => d.year == year)
    { year := year
      totalRainfall := jsRound ((yearData.map (fun d => d.rainfall.getD 0)).sum)
      avgTemp := round1 (calculateAverageOpt (yearData.map (fun d => d.temp)))
      avgHumidity := jsRound (calculateAverageOpt (yearData.map (fun d => d.humidity)))
      totalSunshine := round1 ((yearData.map (fun d => d.sunshine.getD 0)).sum) })

/-- A search criterion value as accepted by `searchData`.  A primitive
(number or string) criterion value fails `typeof value === "object"`
and takes the exact-match branch.  A `{min, max}` object with both
bounds takes the range branch; a range object with a missing bound
passes the `typeof` test, fails the bounds test, and falls through to
the exact-match branch.  A `null` criterion value passes the `typeof`
test — `typeof null === "object"` in JS — after which `value.min`
throws a TypeError.  Criterion values of other shapes (undefined,
booleans, nested objects) do not occur for this data set and are not
modelled. -/
inductive Criterion where
  | exactNum (q : ℚ)
  | exactStr (s : String)
  | nullVal
  | range (minv maxv : ℚ)
  | rangeMinOnly (minv : ℚ)
  | rangeMaxOnly (maxv : ℚ)
deriving DecidableEq

/-- JS `recordValue >= m` for a nullable field value: `null` coerces
to `0`; the string fields of this data set (month labels, free text)
are non-numeric, so their relational comparison with a number is a
`NaN` comparison, i.e. `false`. -/
def jsGE : JSVal → ℚ → Bool
  | .num q, m => decide (m ≤ q)
  | .null, m => decide (m ≤ 0)
  | .str _, _ => false

/-- JS `recordValue <= m` (see `jsGE`). -/
def jsLE : JSVal → ℚ → Bool
  | .num q, m => decide (q ≤ m)
  | .null, m => decide ((0 : ℚ) ≤ m)
  | .str _, _ => false

/-- One criterion test of `searchData`.  `none` models the TypeError
thrown when the criterion value is `null` (`typeof null === "object"`
succeeds and `value.min` then dereferences `null`).  A range object
with a missing bound reaches the exact-match branch
`record[key] === value`, and a primitive field value is never `===` to
an object, so it matches nothing. -/
def matchesCriterion (r : WRecord) (k : WField) : Criterion → Option Bool
  | .range minv maxv =>
      some (jsGE (getField r k) minv && jsLE (getField r k) maxv)
  | .exactNum q => some (decide (getField r k = .num q))
  | .exactStr s => some (decide (getField r k = .str s))
  | .nullVal => none
  | .rangeMinOnly _ => some false
  | .rangeMaxOnly _ => some false

/-- `Object.entries(criteria).every(...)` for one record: criteria are
tested left to right and the conjunction short-circuits at the first
failing criterion; a thrown TypeError (`none`) propagates. -/
def evalCriteria (r : WRecord) : List (WField × Criterion) → Option Bool
  | [] => some true
  | kc :: rest =>
      match matchesCriterion r kc.1 kc.2 with
      | none => none
      | some false => some false
      | some true => evalCriteria r rest

/-- `searchData(criteria)` of the `useWeatherData` hook, applied to
the yearly record set: keep the records that satisfy every criterion,
testing the records in order; a TypeError thrown while testing any
record aborts the whole search (`none`).  (The hook's `!data?.yearly`
early return is the out-of-scope absent data case.) -/
def searchData (yearly : List WRecord) (criteria : List (WField × Criterion)) :
    Option (List WRecord) :=
  match yearly with
  | [] => some []
  | r :: rest =>
      match evalCriteria r criteria with
      | none => none
      | some true => (searchData rest criteria).map (fun l => r :: l)
      | some false => searchData rest criteria

/-- Per-metric entry of `getYearComparison`. -/
structure MetricDiff where
  year1 : ℚ
  year2 : ℚ
  difference : ℚ
  percentChange : ℚ
deriving DecidableEq

/-- Result of `getYearComparison`. -/
structure YearComparison where
  year1 : ℤ
  year2 : ℤ
  differences : List (WField × MetricDiff)
deriving DecidableEq

/-- The fixed metric list of `getYearComparison`. -/
def comparisonMetrics : List WField := [.temp, .rainfall, .humidity, .sunshine]

/-- One metric's comparison entry: the source computes
`data.reduce((sum, d) => sum + (d[metric] || 0), 0) / data.length`,
so a missing (`null`) value contributes `0` to the sum while still
being counted in the divisor. -/
def metricDiffFor (data1 data2 : List WRecord) (m : WField) : MetricDiff :=
  let avg1 := (data1.map (fun d => (numField d m).getD 0)).sum / data1.length
  let avg2 := (data2.map (fun d => (numField d m).getD 0)).sum / data2.length
  { year1 := avg1
    year2 := avg2
    difference := avg2 - avg1
    percentChange := if avg1 ≠ 0 then (avg2 - avg1) / avg1 * 100 else 0 }

/-- `getYearComparison(year1, year2)` of the `useWeatherData` hook:
`null` when either year has no matching records. -/
def getYearComparison (yearly : List WRecord) (year1 year2 : ℤ) :
    Option YearComparison :=
  let data1 := yearly.filter (fun d => d.year == year1)
  let data2 := yearly.filter (fun d => d.year == year2)
  if data1.length = 0 ∨ data2.length = 0 then none
  else
    some
      { year1 := year1
        year2 := year2
        differences :=
          comparisonMetrics.map (fun m => (m, metricDiffFor data1 data2 m)) }

/-- The `values` array of `detectAnomalies`:
`data.map(d => d[metric]).filter(v => v !== null && v !== undefined)`. -/
def metricValues (data : List WRecord) (metric : WField) : List ℚ :=
  (data.map (fun d => numField d metric)).filterMap id

/-- The `mean` of `detectAnomalies`. -/
def metricMean (data : List WRecord) (metric : WField) : ℚ :=
  calculateAverage (metricValues data metric)

/-- The population `variance` of `detectAnomalies`
(`calculateAverage(values.map(v => Math.pow(v - mean, 2)))`). -/
def metricVariance (data : List WRecord) (metric : WField) : ℚ :=
  calculateAverage
    ((metricValues data metric).map (fun v => (v - metricMean data metric) ^ 2))

section
open Classical

/-- `detectAnomalies(data, metric, threshold)`: mean and population
standard deviation over the present values, then keep the records
whose raw field value (JS `null` coercing to `0` in the subtraction)
deviates from the mean by more than `threshold * stdDev`, with
`stdDev = Math.sqrt(variance)`. -/
noncomputable def detectAnomalies (data : List WRecord) (metric : WField)
    (threshold : ℝ) : List WRecord :=
  data.filter (fun d =>
    decide ((|((numField d metric).getD 0 : ℚ) - metricMean data metric| : ℚ) >
      threshold * Real.sqrt ((metricVariance data metric : ℚ) : ℝ)))

end

/-- `x.reduce((sum, xi, i) => sum + xi * y[i], 0)` for equal-length
arrays: the sum of pairwise products. -/
def corrSumXY (x y : List ℝ) : ℝ := (List.zipWith (fun a b => a * b) x y).sum

/-- `xs.reduce((sum, v) => sum + v * v, 0)`. -/
def listSumSq (x : List ℝ) : ℝ := (x.map (fun v => v * v)).sum

/-- The numerator `n * sumXY - sumX * sumY` of `calculateCorrelation`. -/
def corrNumerator (x y : List ℝ) : ℝ :=
  (x.length : ℝ) * corrSumXY x y - x.sum * y.sum

/-- The radicand `(n*sumXX - sumX^2) * (n*sumYY - sumY^2)` of
`calculateCorrelation`'s denominator. -/
def corrDenomSq (x y : List ℝ) : ℝ :=
  ((x.length : ℝ) * listSumSq x - x.sum * x.sum) *
    ((x.length : ℝ) * listSumSq y - y.sum * y.sum)

/-- The denominator `Math.sqrt((n*sumXX - sumX^2) * (n*sumYY - sumY^2))`. -/
noncomputable def corrDenominator (x y : List ℝ) : ℝ :=
  Real.sqrt (corrDenomSq x y)

/-- `calculateCorrelation(x, y)` from utils/calculations.js: `0` on
length mismatch or empty input, `0` when the denominator is zero, else
the Pearson quotient. -/
noncomputable def calculateCorrelation (x y : List ℝ) : ℝ :=
  if x.length ≠ y.length ∨ x.length = 0 then 0
  else if corrDenominator x y = 0 then 0
  else corrNumerator x y / corrDenominator x y

/-- Criterion satisfaction as the specification states it: a `{min, max}`
range criterion asks for a present numeric field value inside the
inclusive range; any other criterion value must be strictly equal to
the field value (so a range object that is missing a bound equals no
primitive field value, and a `null` criterion value would ask for a
`null` field — behaviour the program does not have, since it throws
there). -/
def claimSatisfies (r : WRecord) (k : WField) : Criterion → Prop
  | .exactNum q => getField r k = .num q
  | .exactStr s => getField r k = .str s
  | .nullVal => getField r k = .null
  | .range minv maxv => ∃ q, getField r k = .num q ∧ minv ≤ q ∧ q ≤ maxv
  | .rangeMinOnly _ => False
  | .rangeMaxOnly _ => False

/-- Criterion satisfaction as the code actually behaves when it
returns a result: as `claimSatisfies`, except that a record whose
field is `null` passes a `{min, max}` range criterion exactly when
`min ≤ 0 ≤ max` (JS relational comparison coerces `null` to `0`), and
a `null` criterion value satisfies no record — evaluating it throws
instead of returning. -/
def amendedSatisfies (r : WRecord) (k : WField) : Criterion → Prop
  | .exactNum q => getField r k = .num q
  | .exactStr s => getField r k = .str s
  | .nullVal => False
  | .range minv maxv =>
      (∃ q, getField r k = .num q ∧ minv ≤ q ∧ q ≤ maxv) ∨
        (getField r k = .null ∧ minv ≤ 0 ∧ (0 : ℚ) ≤ maxv)
  | .rangeMinOnly _ => False
  | .rangeMaxOnly _ => False

/-- Mean over only the present values of a metric, as the
specification's missing-value rule demands. -/
def meanOfPresent (data : List WRecord) (metric : WField) : ℚ :=
  calculateAverage (metricValues data metric)

/-- Sum over only the present values of a metric. -/
def sumOfPresent (data : List WRecord) (metric : WField) : ℚ :=
  (metricValues data metric).sum

/-!  Theorems. -/

/-- C2 (code evaluated at the failing input): on a non-empty record
list whose temperature fields are all missing, `calculateTemperatureStats`
does not return `null`; it returns a result whose `max` is `-Infinity`,
whose `min` is `+Infinity` and whose `range` is `-Infinity`. -/
theorem calculateTemperatureStats_all_missing_yields_infinities :
    calculateTemperatureStats
        [⟨2020, "Jan", none, none, none, some 3, some 70, some 1⟩] =
      some ⟨0, .negInf, .posInf, .negInf, none, none⟩ := by
  decide

/-- Pointwise agreement of the `searchData` criterion test with the
amended satisfaction predicate: a test returning `true` is exactly a
satisfied criterion (in particular a throwing test satisfies
nothing). -/
theorem matchesCriterion_eq_some_true_iff (r : WRecord) (k : WField)
    (c : Criterion) :
    matchesCriterion r k c = some true ↔ amendedSatisfies r k c := by
  cases c with
  | exactNum q => simp [matchesCriterion, amendedSatisfies]
  | exactStr s => simp [matchesCriterion, amendedSatisfies]
  | nullVal => simp [matchesCriterion, amendedSatisfies]
  | range minv maxv =>
      cases hv : getField r k with
      | null => simp [matchesCriterion, amendedSatisfies, jsGE, jsLE, hv]
      | num q =>
          simp only [matchesCriterion, amendedSatisfies, jsGE, jsLE, hv,
            Option.some.injEq, Bool.and_eq_true, decide_eq_true_eq,
            JSVal.num.injEq]
          constructor
          · rintro ⟨h1, h2⟩
            exact Or.inl ⟨q, rfl, h1, h2⟩
          · rintro (⟨q', hq', h1, h2⟩ | ⟨h, -⟩)
            · cases hq'
              exact ⟨h1, h2⟩
            · cases h
      | str s => simp [matchesCriterion, amendedSatisfies, jsGE, jsLE, hv]
  | rangeMinOnly m => simp [matchesCriterion, amendedSatisfies]
  | rangeMaxOnly m => simp [matchesCriterion, amendedSatisfies]

/-- A criterion test throws exactly on a `null` criterion value. -/
theorem matchesCriterion_eq_none_iff (r : WRecord) (k : WField) (c : Criterion) :
    matchesCriterion r k c = none ↔ c = Criterion.nullVal := by
  cases c <;> simp [matchesCriterion]

/-- A record passes the whole short-circuiting criteria conjunction
iff it satisfies every criterion. -/
theorem evalCriteria_eq_some_true_iff (r : WRecord)
    (criteria : List (WField × Criterion)) :
    evalCriteria r criteria = some true ↔
      ∀ kc ∈ criteria, amendedSatisfies r kc.1 kc.2 := by
  induction criteria with
  | nil => simp [evalCriteria]
  | cons kc rest ih =>
      rw [evalCriteria]
      rcases hm : matchesCriterion r kc.1 kc.2 with - | b
      · dsimp only
        constructor
        · intro h
          exact absurd h (by simp)
        · intro h
          exfalso
          have hnull := (matchesCriterion_eq_none_iff r kc.1 kc.2).mp hm
          have hs := h kc (List.mem_cons_self kc rest)
          rw [hnull] at hs
          exact hs
      · cases b with
        | false =>
            dsimp only
            constructor
            · intro h
              exact absurd h (by simp)
            · intro h
              have hs := (matchesCriterion_eq_some_true_iff r kc.1 kc.2).mpr
                (h kc (List.mem_cons_self kc rest))
              rw [hm] at hs
              exact absurd hs (by simp)
        | true =>
            dsimp only
            rw [ih]
            constructor
            · intro h kc2 hk
              rcases List.mem_cons.mp hk with rfl | hk
              · exact (matchesCriterion_eq_some_true_iff r kc2.1 kc2.2).mp hm
              · exact h kc2 hk
            · intro h kc2 hk
              exact h kc2 (List.mem_cons_of_mem _ hk)

/-- C7 (counterexample): a record whose `rainfall` is missing (`null`)
is nevertheless returned by `searchData` for the range criterion
`{rainfall: {min: 0, max: 10}}`, although it has no rainfall value in
`[0, 10]` — JS coerces `null` to `0` inside the range test. -/
theorem searchData_null_passes_range :
    searchData [⟨2020, "Jan", some 5, none, none, none, none, none⟩]
        [(WField.rainfall, Criterion.range 0 10)] =
      some [⟨2020, "Jan", some 5, none, none, none, none, none⟩] ∧
    ¬ claimSatisfies ⟨2020, "Jan", some 5, none, none, none, none, none⟩
        WField.rainfall (Criterion.range 0 10) := by
  constructor
  · decide
  · rintro ⟨q, hq, -, -⟩
    simp [getField] at hq

/-- C7 (amended): whenever `searchData` returns a result — reaching a
`null` criterion value instead throws a TypeError, modelled as `none` —
a record is in that result exactly when it is in the yearly set and
satisfies every criterion, where a `{min, max}` criterion is passed by
a present numeric value inside the inclusive range or by a `null`
field when `min ≤ 0 ≤ max`, any other criterion requires strict
equality, and a range object missing a bound matches nothing. -/
theorem searchData_mem_iff :
    ∀ (yearly : List WRecord) (criteria : List (WField × Criterion))
      (result : List WRecord),
      searchData yearly criteria = some result →
        ∀ r : WRecord,
          r ∈ result ↔
            r ∈ yearly ∧ ∀ kc ∈ criteria, amendedSatisfies r kc.1 kc.2 := by
  intro yearly
  induction yearly with
  | nil =>
      intro criteria result h r
      rw [searchData] at h
      obtain rfl := Option.some.inj h
      simp
  | cons r0 rest ih =>
      intro criteria result h r
      rw [searchData] at h
      rcases he : evalCriteria r0 criteria with - | b
      · rw [he] at h
        exact absurd h (by simp)
      · rw [he] at h
        cases b with
        | false =>
            rw [ih criteria result h r, List.mem_cons]
            constructor
            · rintro ⟨h1, h2⟩
              exact ⟨Or.inr h1, h2⟩
            · rintro ⟨h1 | h1, h2⟩
              · exfalso
                subst h1
                have hs := (evalCriteria_eq_some_true_iff r criteria).mpr h2
                rw [he] at hs
                exact absurd hs (by simp)
              · exact ⟨h1, h2⟩
        | true =>
            rw [Option.map_eq_some'] at h
            obtain ⟨l, hl, rfl⟩ := h
            have hr0 := (evalCriteria_eq_some_true_iff r0 criteria).mp he
            rw [List.mem_cons]
            constructor
            · rintro (rfl | hr)
              · exact ⟨List.mem_cons_self r rest, hr0⟩
              · obtain ⟨h1, h2⟩ := (ih criteria l hl r).mp hr
                exact ⟨List.mem_cons_of_mem _ h1, h2⟩
            · rintro ⟨hmem, hsat⟩
              rcases List.mem_cons.mp hmem with rfl | hmem
              · exact Or.inl rfl
              · exact Or.inr ((ih criteria l hl r).mpr ⟨hmem, hsat⟩)

/-- C7 (witness for the amended theorem): concrete instance of the
membership characterisation at a returning search. -/
theorem searchData_mem_iff_witness :
    (⟨2022, "Jan", some 5, none, none, none, some 75, none⟩ : WRecord) ∈
        [(⟨2022, "Jan", some 5, none, none, none, some 75, none⟩ : WRecord)] ↔
      (⟨2022, "Jan", some 5, none, none, none, some 75, none⟩ : WRecord) ∈
          [(⟨2022, "Jan", some 5, none, none, none, some 75, none⟩ : WRecord)] ∧
        ∀ kc ∈ [(WField.humidity, Criterion.range 70 80),
            (WField.year, Criterion.exactNum 2022)],
          amendedSatisfies ⟨2022, "Jan", some 5, none, none, none, some 75, none⟩
            kc.1 kc.2 :=
  searchData_mem_iff
    [⟨2022, "Jan", some 5, none, none, none, some 75, none⟩]
    [(WField.humidity, Criterion.range 70 80),
      (WField.year, Criterion.exactNum 2022)]
    [⟨2022, "Jan", some 5, none, none, none, some 75, none⟩]
    (by decide)
    ⟨2022, "Jan", some 5, none, none, none, some 75, none⟩

/-- C10 (counterexample): with a `null` criterion value listed before
the min-only range object and a non-empty yearly set, `searchData`
throws a TypeError (`none`) instead of returning the empty result the
claim promises. -/
theorem searchData_partial_range_throws :
    searchData [⟨2020, "Jan", some 5, none, none, none, none, none⟩]
        [(WField.rainfall, Criterion.nullVal),
          (WField.temp, Criterion.rangeMinOnly 0)] = none ∧
      (WField.temp, Criterion.rangeMinOnly 0) ∈
        [(WField.rainfall, Criterion.nullVal),
          (WField.temp, Criterion.rangeMinOnly 0)] ∧
      (none : Option (List WRecord)) ≠ some [] := by
  decide

/-- With no `null` criterion value present, a criteria list containing
a one-bound range object evaluates to `false` on every record. -/
theorem evalCriteria_partial_range_false (r : WRecord) (k : WField) (m : ℚ) :
    ∀ criteria : List (WField × Criterion),
      (∀ kc ∈ criteria, kc.2 ≠ Criterion.nullVal) →
      ((k, Criterion.rangeMinOnly m) ∈ criteria ∨
        (k, Criterion.rangeMaxOnly m) ∈ criteria) →
      evalCriteria r criteria = some false := by
  intro criteria
  induction criteria with
  | nil =>
      intro _ h
      rcases h with h | h <;> exact absurd h (List.not_mem_nil _)
  | cons kc rest ih =>
      intro hnonull h
      rw [evalCriteria]
      rcases hm : matchesCriterion r kc.1 kc.2 with - | b
      · exact absurd ((matchesCriterion_eq_none_iff r kc.1 kc.2).mp hm)
          (hnonull kc (List.mem_cons_self kc rest))
      · cases b with
        | false => rfl
        | true =>
            show evalCriteria r rest = some false
            have hrest : (k, Criterion.rangeMinOnly m) ∈ rest ∨
                (k, Criterion.rangeMaxOnly m) ∈ rest := by
              rcases h with h | h
              · rcases List.mem_cons.mp h with heq | h
                · rw [← heq] at hm
                  exact absurd hm (by simp [matchesCriterion])
                · exact Or.inl h
              · rcases List.mem_cons.mp h with heq | h
                · rw [← heq] at hm
                  exact absurd hm (by simp [matchesCriterion])
                · exact Or.inr h
            exact ih (fun kc2 h2 => hnonull kc2 (List.mem_cons_of_mem _ h2))
              hrest

/-- C10 (amended): a criteria map containing a range object that
carries only a `min` bound or only a `max` bound makes the search
return the empty list, provided no criterion value is `null` (a
reached `null` criterion value throws a TypeError instead of
returning): the one-bound object is sent down the exact-match branch,
and no record field is strictly equal to an object. -/
theorem searchData_partial_range_empty (yearly : List WRecord)
    (criteria : List (WField × Criterion)) (k : WField) (m : ℚ)
    (hnonull : ∀ kc ∈ criteria, kc.2 ≠ Criterion.nullVal)
    (h : (k, Criterion.rangeMinOnly m) ∈ criteria ∨
      (k, Criterion.rangeMaxOnly m) ∈ criteria) :
    searchData yearly criteria = some [] := by
  induction yearly with
  | nil => rw [searchData]
  | cons r rest ih =>
      rw [searchData, evalCriteria_partial_range_false r k m criteria hnonull h]
      exact ih

/-- C10 (witness): a concrete min-only criterion (with no null
criterion value present) empties the search. -/
theorem searchData_partial_range_empty_witness :
    searchData [⟨2020, "Jan", some 5, none, none, none, none, none⟩]
      [(WField.temp, Criterion.rangeMinOnly 0)] = some [] :=
  searchData_partial_range_empty _ _ WField.temp 0 (by decide)
    (Or.inl (by decide))

/-- C9: raising the anomaly threshold never adds anomalies: for
`t1 ≤ t2` every record reported at threshold `t2` is reported at
threshold `t1`, and the result size is non-increasing. -/
theorem detectAnomalies_threshold_monotone (data : List WRecord)
    (metric : WField) (t1 t2 : ℝ) (h : t1 ≤ t2) :
    (∀ r, r ∈ detectAnomalies data metric t2 →
        r ∈ detectAnomalies data metric t1) ∧
      (detectAnomalies data metric t2).length ≤
        (detectAnomalies data metric t1).length := by
  have hsub : (detectAnomalies data metric t2).Sublist
      (detectAnomalies data metric t1) := by
    unfold detectAnomalies
    apply List.monotone_filter_right
    intro d hd
    rw [decide_eq_true_eq] at hd ⊢
    refine lt_of_le_of_lt ?_ hd
    exact mul_le_mul_of_nonneg_right h (Real.sqrt_nonneg _)
  exact ⟨fun r hr => hsub.subset hr, hsub.length_le⟩

/-- C9 (witness): concrete instance at thresholds `1 ≤ 2`. -/
theorem detectAnomalies_threshold_monotone_witness :
    (∀ r, r ∈ detectAnomalies [] WField.temp 2 →
        r ∈ detectAnomalies [] WField.temp 1) ∧
      (detectAnomalies [] WField.temp 2).length ≤
        (detectAnomalies [] WField.temp 1).length :=
  detectAnomalies_threshold_monotone [] WField.temp 1 2 one_le_two


/-- Summing a nullable array with JS `+` (null coerced to `0`) equals
summing only the present values. -/
theorem sum_map_getD_eq_sum_filterMap (l : List (Option ℚ)) :
    (l.map (fun v => v.getD 0)).sum = (l.filterMap id).sum := by
  induction l with
  | nil => rfl
  | cons a t ih => cases a <;> simp [ih]

/-- Record-level version of `sum_map_getD_eq_sum_filterMap`. -/
theorem sum_map_numField_getD (data : List WRecord) (m : WField) :
    (data.map (fun d => (numField d m).getD 0)).sum = sumOfPresent data m := by
  unfold sumOfPresent metricValues
  rw [← sum_map_getD_eq_sum_filterMap, List.map_map]
  rfl

/-- The `year1` average computed by `getYearComparison` for one metric:
sum of the present values over the full record count. -/
theorem metricDiffFor_year1 (data1 data2 : List WRecord) (m : WField) :
    (metricDiffFor data1 data2 m).year1 =
      sumOfPresent data1 m / (data1.length : ℚ) := by
  simp only [metricDiffFor]
  rw [sum_map_numField_getD]

/-- The `year2` average computed by `getYearComparison` for one metric. -/
theorem metricDiffFor_year2 (data1 data2 : List WRecord) (m : WField) :
    (metricDiffFor data1 data2 m).year2 =
      sumOfPresent data2 m / (data2.length : ℚ) := by
  simp only [metricDiffFor]
  rw [sum_map_numField_getD]

/-- Three records over two years, the first year holding `temp` values
`[10, null]` — the data exhibiting `getYearComparison`'s treatment of a
missing metric value. -/
def c1Yearly : List WRecord :=
  [⟨2020, "Jan", some 10, none, none, some 0, some 50, some 0⟩,
    ⟨2020, "Feb", none, none, none, some 0, some 50, some 0⟩,
    ⟨2021, "Jan", some 7, none, none, some 0, some 50, some 0⟩]

/-- C1 (counterexample): in `getYearComparison`, a year-2020 subset
with `temp` values `[10, null]` yields a computed mean of `5` — the
missing value is coerced to `0` and still counted in the divisor —
while the mean over only the present values is `10`. -/
theorem getYearComparison_missing_not_filtered :
    ((getYearComparison c1Yearly 2020 2021).bind
        (fun c => (c.differences.find? (fun p => decide (p.1 = WField.temp))).map
          (fun p => p.2.year1))) = some 5 ∧
      meanOfPresent (c1Yearly.filter (fun d => d.year == 2020)) WField.temp = 10 ∧
      (5 : ℚ) ≠ 10 := by
  refine ⟨?_, ?_, by norm_num⟩
  · norm_num [c1Yearly, getYearComparison, metricDiffFor, comparisonMetrics,
      numField]
  · norm_num [c1Yearly, meanOfPresent, metricValues, calculateAverage, numField,
      List.filterMap_cons]

/-- C1 (amended): in `getYearComparison` every per-year metric mean is
the sum of the present values divided by the full record count of that
year — a missing (`null`) metric value is coerced to `0` rather than
filtered out, so it dilutes the mean instead of being ignored. -/
theorem getYearComparison_mean_counts_missing (yearly : List WRecord)
    (y1 y2 : ℤ)
    (h1 : yearly.filter (fun d => d.year == y1) ≠ [])
    (h2 : yearly.filter (fun d => d.year == y2) ≠ []) :
    ∃ c : YearComparison, getYearComparison yearly y1 y2 = some c ∧
      ∀ (m : WField) (d : MetricDiff), (m, d) ∈ c.differences →
        d.year1 = sumOfPresent (yearly.filter (fun d => d.year == y1)) m /
            ((yearly.filter (fun d => d.year == y1)).length : ℚ) ∧
          d.year2 = sumOfPresent (yearly.filter (fun d => d.year == y2)) m /
            ((yearly.filter (fun d => d.year == y2)).length : ℚ) := by
  have e1 : (yearly.filter (fun d => d.year == y1)).length ≠ 0 := by
    simpa [List.length_eq_zero] using h1
  have e2 : (yearly.filter (fun d => d.year == y2)).length ≠ 0 := by
    simpa [List.length_eq_zero] using h2
  unfold getYearComparison
  rw [if_neg (by push_neg; exact ⟨e1, e2⟩)]
  refine ⟨_, rfl, ?_⟩
  intro m d hmd
  rw [List.mem_map] at hmd
  obtain ⟨m', -, hpair⟩ := hmd
  rw [Prod.mk.injEq] at hpair
  obtain ⟨rfl, rfl⟩ := hpair
  exact ⟨metricDiffFor_year1 .., metricDiffFor_year2 ..⟩

/-- C1 (witness for the amended theorem): concrete two-year data set. -/
theorem getYearComparison_mean_counts_missing_witness :
    ∃ c : YearComparison, getYearComparison c1Yearly 2020 2021 = some c ∧
      ∀ (m : WField) (d : MetricDiff), (m, d) ∈ c.differences →
        d.year1 = sumOfPresent (c1Yearly.filter (fun d => d.year == 2020)) m /
            ((c1Yearly.filter (fun d => d.year == 2020)).length : ℚ) ∧
          d.year2 = sumOfPresent (c1Yearly.filter (fun d => d.year == 2021)) m /
            ((c1Yearly.filter (fun d => d.year == 2021)).length : ℚ) :=
  getYearComparison_mean_counts_missing c1Yearly 2020 2021 (by decide) (by decide)

/-- Every element (and the seed) is bounded by a `foldl max`. -/
theorem le_foldl_max (t : List ℚ) : ∀ (a x : ℚ), x ≤ a ∨ x ∈ t → x ≤ t.foldl max a := by
  induction t with
  | nil =>
      intro a x hx
      rcases hx with hx | hx
      · exact hx
      · cases hx
  | cons b u ih =>
      intro a x hx
      rcases hx with hx | hx
      · exact ih (max a b) x (Or.inl (le_trans hx (le_max_left a b)))
      · rcases List.mem_cons.mp hx with rfl | hx
        · exact ih (max a x) x (Or.inl (le_max_right a x))
        · exact ih (max a b) x (Or.inr hx)

/-- A `foldl min` is below every element (and the seed). -/
theorem foldl_min_le (t : List ℚ) : ∀ (a x : ℚ), a ≤ x ∨ x ∈ t → t.foldl min a ≤ x := by
  induction t with
  | nil =>
      intro a x hx
      rcases hx with hx | hx
      · exact hx
      · cases hx
  | cons b u ih =>
      intro a x hx
      rcases hx with hx | hx
      · exact ih (min a b) x (Or.inl (le_trans (min_le_left a b) hx))
      · rcases List.mem_cons.mp hx with rfl | hx
        · exact ih (min a x) x (Or.inl (min_le_right a x))
        · exact ih (min a b) x (Or.inr hx)

/-- C5 (counterexample): on a single record with `temp = 100`,
`tempMin = 0`, `tempMax = 1` (the `tempMin ≤ temp ≤ tempMax` data
invariant violated, which the engine does not enforce), the computed
average `100` exceeds the computed max `1`. -/
theorem calculateTemperatureStats_order_violated :
    ((calculateTemperatureStats
          [⟨2020, "Jan", some 100, some 0, some 1, none, none, none⟩]).map
        (fun s => s.average)) = some 100 ∧
      ((calculateTemperatureStats
            [⟨2020, "Jan", some 100, some 0, some 1, none, none, none⟩]).map
          (fun s => s.max)) = some (.fin 1) ∧
      ¬ ((100 : ℚ) ≤ 1) := by
  refine ⟨?_, by decide, by norm_num⟩
  norm_num [calculateTemperatureStats, calculateAverage, List.filterMap_cons]

/-- C5 (amended): on a non-empty record list whose records all carry
the three temperature fields and respect `tempMin ≤ temp ≤ tempMax`,
`calculateTemperatureStats` returns a finite min and max with
`min ≤ average ≤ max`. -/
theorem calculateTemperatureStats_min_le_avg_le_max (data : List WRecord)
    (hne : data ≠ [])
    (hinv : ∀ r ∈ data, ∃ t a b, r.temp = some t ∧ r.tempMin = some a ∧
      r.tempMax = some b ∧ a ≤ t ∧ t ≤ b) :
    ∃ (s : TempStats) (m M : ℚ), calculateTemperatureStats data = some s ∧
      s.min = .fin m ∧ s.max = .fin M ∧ m ≤ s.average ∧ s.average ≤ M := by
  obtain ⟨d0, rest, rfl⟩ := List.exists_cons_of_ne_nil hne
  obtain ⟨t0, a0, b0, ht0, ha0, hb0, -, -⟩ := hinv d0 (List.mem_cons_self d0 rest)
  set data := d0 :: rest with hdata
  have hdne : data.length ≠ 0 := by simp [hdata]
  set temperatures := (data.map (fun d => d.temp)).filterMap id with htemps
  set maxTemps := (data.map (fun d => d.tempMax)).filterMap id with hmaxs
  set minTemps := (data.map (fun d => d.tempMin)).filterMap id with hmins
  have htemp_mem : ∀ x, x ∈ temperatures ↔ ∃ r ∈ data, r.temp = some x := by
    intro x
    simp [htemps, List.mem_filterMap]
  have hmax_mem : ∀ x, x ∈ maxTemps ↔ ∃ r ∈ data, r.tempMax = some x := by
    intro x
    simp [hmaxs, List.mem_filterMap]
  have hmin_mem : ∀ x, x ∈ minTemps ↔ ∃ r ∈ data, r.tempMin = some x := by
    intro x
    simp [hmins, List.mem_filterMap]
  obtain ⟨c, cs, hc⟩ : ∃ c cs, maxTemps = c :: cs := by
    rcases hx : maxTemps with - | ⟨c, cs⟩
    · exact absurd ((hmax_mem b0).mpr ⟨d0, List.mem_cons_self d0 rest, hb0⟩)
        (by rw [hx]; exact List.not_mem_nil b0)
    · exact ⟨c, cs, rfl⟩
  obtain ⟨e, es, he⟩ : ∃ e es, minTemps = e :: es := by
    rcases hx : minTemps with - | ⟨e, es⟩
    · exact absurd ((hmin_mem a0).mpr ⟨d0, List.mem_cons_self d0 rest, ha0⟩)
        (by rw [hx]; exact List.not_mem_nil a0)
    · exact ⟨e, es, rfl⟩
  have htne : temperatures ≠ [] := by
    intro hx
    exact absurd ((htemp_mem t0).mpr ⟨d0, List.mem_cons_self d0 rest, ht0⟩)
      (by rw [hx]; exact List.not_mem_nil t0)
  have hstats : calculateTemperatureStats data =
      some
        { average := calculateAverage temperatures
          max := jsMaxList maxTemps
          min := jsMinList minTemps
          range := jsSub (jsMaxList maxTemps) (jsMinList minTemps)
          hottestMonth :=
            (data.find? (fun d => optEqJSNum d.tempMax (jsMaxList maxTemps))).map
              (fun d => d.month)
          coldestMonth :=
            (data.find? (fun d => optEqJSNum d.tempMin (jsMinList minTemps))).map
              (fun d => d.month) } := by
    unfold calculateTemperatureStats
    rw [if_neg hdne]
  have hlen : (0 : ℚ) < temperatures.length := by
    have h0 : temperatures.length ≠ 0 := by
      simpa [List.length_eq_zero] using htne
    exact_mod_cast Nat.pos_of_ne_zero h0
  have hlow : es.foldl min e ≤ calculateAverage temperatures := by
    have hbound : ∀ x ∈ temperatures, es.foldl min e ≤ x := by
      intro x hx
      obtain ⟨r, hr, hrt⟩ := (htemp_mem x).mp hx
      obtain ⟨t, a, b, ht, ha, hb, hat, -⟩ := hinv r hr
      rw [ht] at hrt
      cases hrt
      have haT : a ∈ minTemps := (hmin_mem a).mpr ⟨r, hr, ha⟩
      refine le_trans (foldl_min_le es e a ?_) hat
      rw [he] at haT
      rcases List.mem_cons.mp haT with rfl | h
      · exact Or.inl le_rfl
      · exact Or.inr h
    have hsum := List.card_nsmul_le_sum temperatures _ hbound
    rw [nsmul_eq_mul] at hsum
    unfold calculateAverage
    rw [if_neg (by simpa [List.length_eq_zero] using htne), le_div_iff₀ hlen]
    calc es.foldl min e * (temperatures.length : ℚ)
        = (temperatures.length : ℚ) * es.foldl min e := by ring
      _ ≤ temperatures.sum := hsum
  have hhigh : calculateAverage temperatures ≤ cs.foldl max c := by
    have hbound : ∀ x ∈ temperatures, x ≤ cs.foldl max c := by
      intro x hx
      obtain ⟨r, hr, hrt⟩ := (htemp_mem x).mp hx
      obtain ⟨t, a, b, ht, ha, hb, -, htb⟩ := hinv r hr
      rw [ht] at hrt
      cases hrt
      have hbT : b ∈ maxTemps := (hmax_mem b).mpr ⟨r, hr, hb⟩
      refine le_trans htb (le_foldl_max cs c b ?_)
      rw [hc] at hbT
      rcases List.mem_cons.mp hbT with rfl | h
      · exact Or.inl le_rfl
      · exact Or.inr h
    have hsum := List.sum_le_card_nsmul temperatures _ hbound
    rw [nsmul_eq_mul] at hsum
    unfold calculateAverage
    rw [if_neg (by simpa [List.length_eq_zero] using htne), div_le_iff₀ hlen]
    calc temperatures.sum ≤ (temperatures.length : ℚ) * cs.foldl max c := hsum
      _ = cs.foldl max c * (temperatures.length : ℚ) := by ring
  refine ⟨_, es.foldl min e, cs.foldl max c, hstats, ?_, ?_, hlow, hhigh⟩
  · show jsMinList minTemps = _
    rw [he]
    rfl
  · show jsMaxList maxTemps = _
    rw [hc]
    rfl

/-- C5 (witness for the amended theorem): one well-formed record. -/
theorem calculateTemperatureStats_min_le_avg_le_max_witness :
    ∃ (s : TempStats) (m M : ℚ),
      calculateTemperatureStats
          [⟨2020, "Jan", some 10, some 5, some 15, none, none, none⟩] = some s ∧
        s.min = .fin m ∧ s.max = .fin M ∧ m ≤ s.average ∧ s.average ≤ M :=
  calculateTemperatureStats_min_le_avg_le_max _ (by decide)
    (fun r hr => by
      rw [List.mem_singleton] at hr
      subst hr
      exact ⟨10, 5, 15, rfl, rfl, rfl, by norm_num, by norm_num⟩)

/-- Membership in the `Set`-based deduplication: an element is kept
iff it occurs in the remaining input and was not already seen. -/
theorem mem_jsSetAux (l : List ℤ) :
    ∀ (seen : List ℤ) (x : ℤ), x ∈ jsSetAux l seen ↔ x ∈ l ∧ x ∉ seen := by
  induction l with
  | nil =>
      intro seen x
      simp [jsSetAux]
  | cons a t ih =>
      intro seen x
      by_cases ha : a ∈ seen
      · rw [jsSetAux, if_pos ha, ih]
        constructor
        · rintro ⟨hx, hns⟩
          exact ⟨List.mem_cons_of_mem _ hx, hns⟩
        · rintro ⟨hx, hns⟩
          rcases List.mem_cons.mp hx with rfl | hx
          · exact absurd ha hns
          · exact ⟨hx, hns⟩
      · rw [jsSetAux, if_neg ha]
        constructor
        · intro hx
          rcases List.mem_cons.mp hx with rfl | hx
          · exact ⟨List.mem_cons_self _ _, ha⟩
          · rw [ih] at hx
            obtain ⟨h1, h2⟩ := hx
            exact ⟨List.mem_cons_of_mem _ h1,
              fun hs => h2 (List.mem_cons_of_mem _ hs)⟩
        · rintro ⟨hx, hns⟩
          rcases List.mem_cons.mp hx with rfl | hx
          · exact List.mem_cons_self _ _
          · by_cases hxa : x = a
            · subst hxa
              exact List.mem_cons_self _ _
            · refine List.mem_cons_of_mem _ ?_
              rw [ih]
              exact ⟨hx, fun hs => (List.mem_cons.mp hs).elim hxa hns⟩

/-- The `Set`-based deduplication returns a duplicate-free list. -/
theorem nodup_jsSetAux (l : List ℤ) : ∀ seen : List ℤ, (jsSetAux l seen).Nodup := by
  induction l with
  | nil =>
      intro seen
      simp [jsSetAux]
  | cons a t ih =>
      intro seen
      by_cases ha : a ∈ seen
      · rw [jsSetAux, if_pos ha]
        exact ih seen
      · rw [jsSetAux, if_neg ha]
        refine List.nodup_cons.mpr ⟨?_, ih _⟩
        intro hmem
        rw [mem_jsSetAux] at hmem
        exact hmem.2 (List.mem_cons_self _ _)

/-- `[...new Set(l)]` has the same members as `l`. -/
theorem mem_jsSetList (l : List ℤ) (x : ℤ) : x ∈ jsSetList l ↔ x ∈ l := by
  rw [jsSetList, mem_jsSetAux]
  simp

/-- `[...new Set(l)]` is duplicate-free. -/
theorem nodup_jsSetList (l : List ℤ) : (jsSetList l).Nodup :=
  nodup_jsSetAux l []

/-- `calculateAverageOpt` over a whole-record map: sum of present
values over the full record count. -/
theorem calculateAverageOpt_map_eq (data : List WRecord) (m : WField)
    (f : WRecord → Option ℚ) (hf : ∀ d, numField d m = f d) (hne : data ≠ []) :
    calculateAverageOpt (data.map f) =
      sumOfPresent data m / (data.length : ℚ) := by
  unfold calculateAverageOpt
  rw [if_neg (by simpa [List.length_eq_zero] using hne), List.map_map,
    List.length_map]
  congr 1
  rw [← sum_map_numField_getD data m]
  refine congrArg List.sum (List.map_congr_left ?_)
  intro d _
  show (f d).getD 0 = (numField d m).getD 0
  rw [hf]

/-- C6 (amended): `calculateYearlyAggregates` produces exactly one row
per distinct year present, and each row carries the rounded sum of the
present `rainfall`/`sunshine` values and the rounded quotient of the
present `temp`/`humidity` sums by the year's **full** record count
(a missing value is coerced to `0` by JS `+`, not filtered out). -/
theorem calculateYearlyAggregates_rows (yearlyData : List WRecord) :
    ((calculateYearlyAggregates yearlyData).map (fun a => a.year)).Nodup ∧
      (∀ y : ℤ, y ∈ (calculateYearlyAggregates yearlyData).map (fun a => a.year) ↔
        y ∈ yearlyData.map (fun d => d.year)) ∧
      ∀ row ∈ calculateYearlyAggregates yearlyData,
        yearlyData.filter (fun d => d.year == row.year) ≠ [] ∧
          row.totalRainfall = jsRound
            (sumOfPresent (yearlyData.filter (fun d => d.year == row.year))
              .rainfall) ∧
          row.avgTemp = round1
            (sumOfPresent (yearlyData.filter (fun d => d.year == row.year)) .temp /
              ((yearlyData.filter (fun d => d.year == row.year)).length : ℚ)) ∧
          row.avgHumidity = jsRound
            (sumOfPresent (yearlyData.filter (fun d => d.year == row.year))
                .humidity /
              ((yearlyData.filter (fun d => d.year == row.year)).length : ℚ)) ∧
          row.totalSunshine = round1
            (sumOfPresent (yearlyData.filter (fun d => d.year == row.year))
              .sunshine) := by
  have hyears : (calculateYearlyAggregates yearlyData).map (fun a => a.year) =
      jsSetList (yearlyData.map (fun d => d.year)) := by
    unfold calculateYearlyAggregates
    rw [List.map_map]
    exact (List.map_congr_left fun y _ => rfl).trans (List.map_id _)
  refine ⟨?_, ?_, ?_⟩
  · rw [hyears]
    exact nodup_jsSetList _
  · intro y
    rw [hyears, mem_jsSetList]
  · intro row hrow
    unfold calculateYearlyAggregates at hrow
    rw [List.mem_map] at hrow
    obtain ⟨y, hy, hrow⟩ := hrow
    subst hrow
    dsimp only
    have hyne : yearlyData.filter (fun d => d.year == y) ≠ [] := by
      rw [mem_jsSetList, List.mem_map] at hy
      obtain ⟨d, hd, hdy⟩ := hy
      refine List.ne_nil_of_mem (a := d) ?_
      rw [List.mem_filter]
      exact ⟨hd, by simp [hdy]⟩
    refine ⟨hyne, ?_, ?_, ?_, ?_⟩
    · show jsRound ((List.map (fun d => ((numField d .rainfall).getD 0)) _).sum) = _
      rw [sum_map_numField_getD]
    · rw [calculateAverageOpt_map_eq _ WField.temp (fun d => d.temp)
        (fun d => rfl) hyne]
    · rw [calculateAverageOpt_map_eq _ WField.humidity (fun d => d.humidity)
        (fun d => rfl) hyne]
    · show round1 ((List.map (fun d => ((numField d .sunshine).getD 0)) _).sum) = _
      rw [sum_map_numField_getD]

/-- A one-year data set (year 2022) with a missing humidity value. -/
def c6Data : List WRecord :=
  [⟨2022, "Jan", some 5, none, none, some 100, some 80, some 20⟩,
    ⟨2022, "Feb", some 7, none, none, some 50, none, some 30⟩]

/-- The aggregate row the source computes for `c6Data`. -/
def c6Row : YearAgg := ⟨2022, 150, 6, 40, 50⟩

/-- C6 (witness for the amended theorem): the row facts at `c6Data`. -/
theorem calculateYearlyAggregates_rows_witness :
    c6Data.filter (fun d => d.year == c6Row.year) ≠ [] ∧
      c6Row.totalRainfall = jsRound
        (sumOfPresent (c6Data.filter (fun d => d.year == c6Row.year))
          .rainfall) ∧
      c6Row.avgTemp = round1
        (sumOfPresent (c6Data.filter (fun d => d.year == c6Row.year)) .temp /
          ((c6Data.filter (fun d => d.year == c6Row.year)).length : ℚ)) ∧
      c6Row.avgHumidity = jsRound
        (sumOfPresent (c6Data.filter (fun d => d.year == c6Row.year)) .humidity /
          ((c6Data.filter (fun d => d.year == c6Row.year)).length : ℚ)) ∧
      c6Row.totalSunshine = round1
        (sumOfPresent (c6Data.filter (fun d => d.year == c6Row.year))
          .sunshine) :=
  (calculateYearlyAggregates_rows c6Data).2.2 c6Row
    (by norm_num [calculateYearlyAggregates, c6Data, c6Row, jsSetList, jsSetAux,
      calculateAverageOpt, round1, jsRound])

/-- C6 (counterexample): on a year whose humidity values are
`[80, null]`, the code outputs `avgHumidity = 40` — the missing value
is counted as `0` in the mean — while the humidity mean over the
present values rounds to `80`. -/
theorem calculateYearlyAggregates_missing_dilutes_mean :
    (calculateYearlyAggregates c6Data).map (fun a => a.avgHumidity) = [40] ∧
      jsRound (meanOfPresent (c6Data.filter (fun d => d.year == (2022 : ℤ)))
        .humidity) = 80 ∧
      (40 : ℤ) ≠ 80 := by
  refine ⟨?_, ?_, by decide⟩
  · norm_num [calculateYearlyAggregates, c6Data, jsSetList, jsSetAux,
      calculateAverageOpt, round1, jsRound]
  · norm_num [c6Data, meanOfPresent, metricValues, calculateAverage, numField,
      List.filterMap_cons, jsRound]

/-- The product under the square root is zero exactly when the
denominator is zero. -/
theorem corrDenominator_eq_zero_of (x y : List ℝ) (h : corrDenomSq x y = 0) :
    corrDenominator x y = 0 := by
  rw [corrDenominator, h, Real.sqrt_zero]

/-- C3: `calculateCorrelation` returns exactly `0` whenever the two
arrays differ in length, or are empty, or the radicand
`(n Σx² − (Σx)²)(n Σy² − (Σy)²)` is zero; being a total function into
`ℝ` with every division guarded, it never yields `NaN` and never
throws. -/
theorem calculateCorrelation_degenerate_zero (x y : List ℝ)
    (h : x.length ≠ y.length ∨ x = [] ∨ corrDenomSq x y = 0) :
    calculateCorrelation x y = 0 := by
  unfold calculateCorrelation
  rcases h with h | h | h
  · rw [if_pos (Or.inl h)]
  · rw [if_pos (Or.inr (by simp [h]))]
  · by_cases hg : x.length ≠ y.length ∨ x.length = 0
    · rw [if_pos hg]
    · rw [if_neg hg, if_pos (corrDenominator_eq_zero_of x y h)]

/-- C3 (witness): mismatched lengths give exactly `0`. -/
theorem calculateCorrelation_degenerate_zero_witness :
    calculateCorrelation [(1 : ℝ)] [(1 : ℝ), 2] = 0 :=
  calculateCorrelation_degenerate_zero _ _ (Or.inl (by decide))

/-- The sum of pairwise products is symmetric in its two arrays. -/
theorem corrSumXY_comm : ∀ x y : List ℝ, corrSumXY x y = corrSumXY y x := by
  intro x
  induction x with
  | nil =>
      intro y
      cases y <;> simp [corrSumXY]
  | cons a t ih =>
      intro y
      cases y with
      | nil => simp [corrSumXY]
      | cons b u =>
          simp only [corrSumXY, List.zipWith_cons_cons, List.sum_cons]
          have hu := ih u
          simp only [corrSumXY] at hu
          rw [mul_comm a b, hu]

/-- C8: `calculateCorrelation` is symmetric on equal-length arrays. -/
theorem calculateCorrelation_symm (x y : List ℝ) (h : x.length = y.length) :
    calculateCorrelation x y = calculateCorrelation y x := by
  have hnum : corrNumerator x y = corrNumerator y x := by
    unfold corrNumerator
    rw [corrSumXY_comm, h, mul_comm x.sum y.sum]
  have hden : corrDenominator x y = corrDenominator y x := by
    unfold corrDenominator corrDenomSq
    rw [h]
    ring_nf
  unfold calculateCorrelation
  by_cases h0 : x.length = 0
  · rw [if_pos (Or.inr h0), if_pos (Or.inr (by rw [← h]; exact h0))]
  · have hg2 : ¬(y.length ≠ x.length ∨ y.length = 0) := by
      push_neg
      exact ⟨h.symm, by rw [← h]; exact h0⟩
    rw [if_neg (by push_neg; exact ⟨h, h0⟩), if_neg hg2, hden, hnum]

/-- C8 (witness): symmetry at a concrete pair. -/
theorem calculateCorrelation_symm_witness :
    calculateCorrelation [(1 : ℝ), 2] [(3 : ℝ), 4] =
      calculateCorrelation [(3 : ℝ), 4] [(1 : ℝ), 2] :=
  calculateCorrelation_symm _ _ (by decide)

/-- A list sum as an indexed sum (out-of-range default never used). -/
theorem list_sum_eq_sum_getD (l : List ℝ) :
    l.sum = ∑ i ∈ Finset.range l.length, l.getD i 0 := by
  induction l with
  | nil => simp
  | cons a t ih =>
      rw [List.sum_cons, ih, List.length_cons, Finset.sum_range_succ']
      simp [List.getD_cons_succ, List.getD_cons_zero, add_comm]

/-- The sum of squares as an indexed sum. -/
theorem listSumSq_eq_sum_getD (l : List ℝ) :
    listSumSq l = ∑ i ∈ Finset.range l.length, l.getD i 0 * l.getD i 0 := by
  induction l with
  | nil => simp [listSumSq]
  | cons a t ih =>
      simp only [listSumSq, List.map_cons, List.sum_cons] at ih ⊢
      rw [ih, List.length_cons, Finset.sum_range_succ']
      simp [List.getD_cons_succ, List.getD_cons_zero, add_comm]

/-- The sum of pairwise products as an indexed sum (the first list is
no longer than the second). -/
theorem corrSumXY_eq_sum_getD :
    ∀ x y : List ℝ, x.length ≤ y.length →
      corrSumXY x y = ∑ i ∈ Finset.range x.length, x.getD i 0 * y.getD i 0 := by
  intro x
  induction x with
  | nil => intro y _; simp [corrSumXY]
  | cons a t ih =>
      intro y hle
      cases y with
      | nil => simp at hle
      | cons b u =>
          simp only [List.length_cons, Nat.succ_le_succ_iff] at hle
          simp only [corrSumXY, List.zipWith_cons_cons, List.sum_cons]
          have hu := ih u hle
          simp only [corrSumXY] at hu
          rw [hu, List.length_cons, Finset.sum_range_succ']
          simp [List.getD_cons_succ, List.getD_cons_zero, add_comm]

/-- Cauchy–Schwarz for the correlation sums: the square of the
numerator is at most the radicand of the denominator. -/
theorem corrNumerator_sq_le_corrDenomSq (x y : List ℝ)
    (hlen : x.length = y.length) :
    corrNumerator x y ^ 2 ≤ corrDenomSq x y := by
  rcases Nat.eq_zero_or_pos x.length with h0 | hpos
  · have hx : x = [] := List.length_eq_zero.mp h0
    have hy : y = [] := List.length_eq_zero.mp (hlen ▸ h0)
    subst hx
    subst hy
    simp [corrNumerator, corrDenomSq, corrSumXY, listSumSq]
  · set n : ℕ := x.length with hn
    have hnR : (0 : ℝ) < (n : ℝ) := by exact_mod_cast hpos
    have hxs : x.sum = ∑ i ∈ Finset.range n, x.getD i 0 := list_sum_eq_sum_getD x
    have hys : y.sum = ∑ i ∈ Finset.range n, y.getD i 0 := by
      rw [list_sum_eq_sum_getD y, ← hlen]
    have hxx : listSumSq x = ∑ i ∈ Finset.range n, x.getD i 0 * x.getD i 0 :=
      listSumSq_eq_sum_getD x
    have hyy : listSumSq y = ∑ i ∈ Finset.range n, y.getD i 0 * y.getD i 0 := by
      rw [listSumSq_eq_sum_getD y, ← hlen]
    have hxy : corrSumXY x y = ∑ i ∈ Finset.range n, x.getD i 0 * y.getD i 0 :=
      corrSumXY_eq_sum_getD x y (le_of_eq hlen)
    set A := ∑ i ∈ Finset.range n, x.getD i 0 with hA
    set B := ∑ i ∈ Finset.range n, y.getD i 0 with hB
    set P := ∑ i ∈ Finset.range n, x.getD i 0 * y.getD i 0 with hP
    set X2 := ∑ i ∈ Finset.range n, x.getD i 0 * x.getD i 0 with hX2
    set Y2 := ∑ i ∈ Finset.range n, y.getD i 0 * y.getD i 0 with hY2
    have hcs := Finset.sum_mul_sq_le_sq_mul_sq (Finset.range n)
      (fun i => (n : ℝ) * x.getD i 0 - A) (fun i => (n : ℝ) * y.getD i 0 - B)
    have hfg : ∑ i ∈ Finset.range n,
        ((n : ℝ) * x.getD i 0 - A) * ((n : ℝ) * y.getD i 0 - B) =
        (n : ℝ) * ((n : ℝ) * P - A * B) := by
      calc ∑ i ∈ Finset.range n,
            ((n : ℝ) * x.getD i 0 - A) * ((n : ℝ) * y.getD i 0 - B)
          = ∑ i ∈ Finset.range n,
              (((n : ℝ) * (n : ℝ)) * (x.getD i 0 * y.getD i 0) -
                ((n : ℝ) * B) * x.getD i 0 - ((n : ℝ) * A) * y.getD i 0 +
                A * B) :=
            Finset.sum_congr rfl (fun i _ => by ring)
        _ = (n : ℝ) * ((n : ℝ) * P - A * B) := by
            rw [Finset.sum_add_distrib, Finset.sum_sub_distrib,
              Finset.sum_sub_distrib, ← Finset.mul_sum, ← Finset.mul_sum,
              ← Finset.mul_sum, Finset.sum_const, Finset.card_range,
              nsmul_eq_mul, ← hA, ← hB, ← hP]
            ring
    have hff : ∑ i ∈ Finset.range n,
        ((n : ℝ) * x.getD i 0 - A) ^ 2 = (n : ℝ) * ((n : ℝ) * X2 - A * A) := by
      calc ∑ i ∈ Finset.range n, ((n : ℝ) * x.getD i 0 - A) ^ 2
          = ∑ i ∈ Finset.range n,
              (((n : ℝ) * (n : ℝ)) * (x.getD i 0 * x.getD i 0) -
                ((n : ℝ) * A) * x.getD i 0 - ((n : ℝ) * A) * x.getD i 0 +
                A * A) :=
            Finset.sum_congr rfl (fun i _ => by ring)
        _ = (n : ℝ) * ((n : ℝ) * X2 - A * A) := by
            rw [Finset.sum_add_distrib, Finset.sum_sub_distrib,
              Finset.sum_sub_distrib, ← Finset.mul_sum, ← Finset.mul_sum,
              ← Finset.mul_sum, Finset.sum_const, Finset.card_range,
              nsmul_eq_mul, ← hA, ← hX2]
            ring
    have hgg : ∑ i ∈ Finset.range n,
        ((n : ℝ) * y.getD i 0 - B) ^ 2 = (n : ℝ) * ((n : ℝ) * Y2 - B * B) := by
      calc ∑ i ∈ Finset.range n, ((n : ℝ) * y.getD i 0 - B) ^ 2
          = ∑ i ∈ Finset.range n,
              (((n : ℝ) * (n : ℝ)) * (y.getD i 0 * y.getD i 0) -
                ((n : ℝ) * B) * y.getD i 0 - ((n : ℝ) * B) * y.getD i 0 +
                B * B) :=
            Finset.sum_congr rfl (fun i _ => by ring)
        _ = (n : ℝ) * ((n : ℝ) * Y2 - B * B) := by
            rw [Finset.sum_add_distrib, Finset.sum_sub_distrib,
              Finset.sum_sub_distrib, ← Finset.mul_sum, ← Finset.mul_sum,
              ← Finset.mul_sum, Finset.sum_const, Finset.card_range,
              nsmul_eq_mul, ← hB, ← hY2]
            ring
    rw [hfg, hff, hgg] at hcs
    have hgoal : corrNumerator x y = (n : ℝ) * P - A * B := by
      rw [corrNumerator, hxy, hxs, hys]
    have hds : corrDenomSq x y =
        ((n : ℝ) * X2 - A * A) * ((n : ℝ) * Y2 - B * B) := by
      rw [corrDenomSq, hxx, hyy, hxs, hys]
    rw [hgoal, hds]
    have hsq : (n : ℝ) ^ 2 * ((n : ℝ) * P - A * B) ^ 2 ≤
        (n : ℝ) ^ 2 * (((n : ℝ) * X2 - A * A) * ((n : ℝ) * Y2 - B * B)) := by
      calc (n : ℝ) ^ 2 * ((n : ℝ) * P - A * B) ^ 2
          = ((n : ℝ) * ((n : ℝ) * P - A * B)) ^ 2 := by ring
        _ ≤ ((n : ℝ) * ((n : ℝ) * X2 - A * A)) *
              ((n : ℝ) * ((n : ℝ) * Y2 - B * B)) := hcs
        _ = (n : ℝ) ^ 2 * (((n : ℝ) * X2 - A * A) * ((n : ℝ) * Y2 - B * B)) := by
            ring
    exact le_of_mul_le_mul_left hsq (by positivity)

/-- The numerator is bounded in absolute value by the denominator. -/
theorem abs_corrNumerator_le_corrDenominator (x y : List ℝ)
    (hlen : x.length = y.length) :
    |corrNumerator x y| ≤ corrDenominator x y := by
  rw [corrDenominator]
  calc |corrNumerator x y| = Real.sqrt (corrNumerator x y ^ 2) :=
        (Real.sqrt_sq_eq_abs _).symm
    _ ≤ Real.sqrt (corrDenomSq x y) :=
        Real.sqrt_le_sqrt (corrNumerator_sq_le_corrDenomSq x y hlen)

/-- C4: for every pair of value arrays the correlation lies in
`[-1, 1]`, and on degenerate input (mismatched lengths, empty arrays,
or a zero radicand) it is exactly `0`. -/
theorem calculateCorrelation_in_unit_interval (x y : List ℝ) :
    -1 ≤ calculateCorrelation x y ∧ calculateCorrelation x y ≤ 1 ∧
      ((x.length ≠ y.length ∨ x = [] ∨ corrDenomSq x y = 0) →
        calculateCorrelation x y = 0) := by
  by_cases hg : x.length ≠ y.length ∨ x.length = 0
  · unfold calculateCorrelation
    rw [if_pos hg]
    norm_num
  · push_neg at hg
    obtain ⟨hlen, h0⟩ := hg
    by_cases hd : corrDenominator x y = 0
    · have hz : calculateCorrelation x y = 0 := by
        unfold calculateCorrelation
        rw [if_neg (by push_neg; exact ⟨hlen, h0⟩), if_pos hd]
      rw [hz]
      norm_num
    · have hval : calculateCorrelation x y =
          corrNumerator x y / corrDenominator x y := by
        unfold calculateCorrelation
        rw [if_neg (by push_neg; exact ⟨hlen, h0⟩), if_neg hd]
      have hdpos : 0 < corrDenominator x y :=
        lt_of_le_of_ne (Real.sqrt_nonneg _) (Ne.symm hd)
      have habs : |calculateCorrelation x y| ≤ 1 := by
        rw [hval, abs_div, abs_of_pos hdpos]
        exact (div_le_one hdpos).mpr (abs_corrNumerator_le_corrDenominator x y hlen)
      refine ⟨(abs_le.mp habs).1, (abs_le.mp habs).2, fun h => ?_⟩
      rcases h with h | h | h
      · exact absurd hlen h
      · exact absurd (by simp [h] : x.length = 0) h0
      · exact absurd (corrDenominator_eq_zero_of x y h) hd

/-- C4 (witness): the bounds and the degenerate clause at a concrete
mismatched-length pair. -/
theorem calculateCorrelation_in_unit_interval_witness :
    -1 ≤ calculateCorrelation [(1 : ℝ)] [(2 : ℝ), 3] ∧
      calculateCorrelation [(1 : ℝ)] [(2 : ℝ), 3] ≤ 1 ∧
      calculateCorrelation [(1 : ℝ)] [(2 : ℝ), 3] = 0 :=
  ⟨(calculateCorrelation_in_unit_interval _ _).1,
    (calculateCorrelation_in_unit_interval _ _).2.1,
    (calculateCorrelation_in_unit_interval _ _).2.2 (Or.inl (by decide))⟩
